import Mathlib

/-!
Shallow embedding of the novalink lavalink client, covering the parts of the
code that the verified properties talk about:

* `src/lavalink/ext/manager/queue.py` — the per-guild playback queue
  (`Queue.add`, `Queue.next`, `Queue.previous`, `Queue.skip_to`,
  `Queue.shuffle`, `Queue.remove_tracks`, `Queue.track_events`);
* `src/lavalink/client.py` — `Lavalink._handle_payload` and
  `Lavalink.dispatch`;
* `src/lavalink/events.py` — `ReadyEvent.from_payload`;
* `src/lavalink/models.py` — `PlayerState.from_payload`.

Python side effects are made explicit: each operation returns the updated
state together with the list of REST commands it issued, and raising an
exception is modelled with `Except` (an `Except.error` result means the
exception propagates to the caller and, in the state-passing reading, no
state update and no command is observed by the caller).  `random.shuffle`
is modelled by passing the shuffled list as an explicit parameter,
constrained to be a permutation of its input in the theorems.
-/

/-- Python exceptions that the modelled code can raise. -/
inductive PyErr where
  | indexError
  | valueError
  | keyError
  | assertionError
deriving DecidableEq, Repr

/-- A track (`models.Track`).  The queue logic only ever reads the
`encoded` field; `attrs` equality on the Python class is componentwise, so
equality of the modelled record matches Python `==` restricted to the
fields the queue code can observe.  The other fields of `models.Track`
(the decoded `info` struct) are never consulted by the code under
verification and are not modelled. -/
structure Track where
  encoded : String
deriving DecidableEq, Repr

/-- `models.TrackEndReason`. -/
inductive TrackEndReason where
  | finished
  | loadFailed
  | stopped
  | replaced
  | cleanup
deriving DecidableEq, Repr

/-- `RepeatMode` from `queue.py`. -/
inductive RepeatMode where
  | none
  | one
  | all
deriving DecidableEq, Repr

/-- A REST command issued through the `PlayerManager`:
`PlayerManager.play(guild_id, encoded_track)` is
`update_player(guild_id, encoded_track=track)` and
`PlayerManager.stop(guild_id)` is
`update_player(guild_id, encoded_track=None)`. -/
inductive Command where
  | play (guildId : Nat) (encoded : String)
  | stop (guildId : Nat)
deriving DecidableEq, Repr

/-! ### Python list primitives

The queue code uses Python list indexing, slicing, `list.pop`,
`list.remove` and slice assignment.  These are reproduced here with
Python's negative-index and clamping semantics, over `Int` indexes. -/

/-- Python `l[i]` for a single index: negative indexes count from the end,
out-of-range indexes raise `IndexError` (modelled as `none`). -/
def pyIndex? {α : Type} (l : List α) (i : Int) : Option α :=
  if 0 ≤ i then l.get? i.toNat
  else if 0 ≤ i + l.length then l.get? (i + l.length).toNat
  else none

/-- Clamp a Python slice bound to an actual position in `[0, len]`:
negative bounds count from the end and everything is clamped into range. -/
def sliceIdx (len : Nat) (i : Int) : Nat :=
  if i < 0 then (i + len).toNat else min i.toNat len

/-- Python `l[i:]`. -/
def pyDrop {α : Type} (l : List α) (i : Int) : List α :=
  l.drop (sliceIdx l.length i)

/-- Python `l[:i]`. -/
def pyTake {α : Type} (l : List α) (i : Int) : List α :=
  l.take (sliceIdx l.length i)

/-- Python `l.pop(i)`: remove and discard the element at index `i`
(negative indexes count from the end); `IndexError` if out of range. -/
def pyPop {α : Type} (l : List α) (i : Int) : Option (List α) :=
  let j : Int := if i < 0 then i + l.length else i
  if 0 ≤ j ∧ j < l.length then some (l.eraseIdx j.toNat) else none

/-- Python `l.remove(x)`: drop the first element equal to `x`;
`ValueError` if no element is equal (modelled as `none`). -/
def pyRemove {α : Type} [DecidableEq α] : List α → α → Option (List α)
  | [], _ => none
  | a :: as, x => if a = x then some as else (pyRemove as x).map (a :: ·)

/-! ### The queue state machine (`queue.py`) -/

/-- The mutable state of `Queue` (`queue.py`).  The `lavalink` and
`player_manager` references are not data; the commands they would send are
returned explicitly by each operation.  `now_playing_pos` is a Python
`int`, hence `Int` (the code is supposed to keep it non-negative, and the
invariant theorems track exactly that). -/
structure Queue where
  guildId : Nat
  queue : List Track
  now_playing_pos : Int
  is_paused : Bool
  repeat_mode : RepeatMode
deriving DecidableEq, Repr

/-- The `Queue.now_playing` property: `queue[now_playing_pos]` when
`now_playing_pos < len(queue)`, `None` otherwise. -/
def Queue.now_playing (q : Queue) : Option Track :=
  if q.now_playing_pos < (q.queue.length : Int) then pyIndex? q.queue q.now_playing_pos
  else none

/-- `Queue.add(track)`: append, then start playback when the queue was
empty or the cursor sits on the freshly appended final track (and the
queue is not paused).  Returns the new state and the issued commands. -/
def Queue.add (t : Track) (q : Queue) : Queue × List Command :=
  let q2 : Queue := { q with queue := q.queue ++ [t] }
  if ¬ q2.is_paused ∧
      ((q2.now_playing_pos = 0 ∧ q2.queue.length = 1) ∨
        q2.now_playing_pos = (q2.queue.length : Int) - 1) then
    (q2, [Command.play q2.guildId t.encoded])
  else
    (q2, [])

/-- `Queue.next()`: advance the cursor unless it is already past the end;
play the new current track when there is one and the queue is not paused.
The `assert self.now_playing` in the source is modelled as
`PyErr.assertionError` (in Python the guarded branch can also raise
`IndexError` out of the `now_playing` property for cursors below `-len`;
both are unreachable from states satisfying the cursor invariant). -/
def Queue.next (q : Queue) : Except PyErr (Queue × List Command × Option Track) :=
  if ¬ q.now_playing_pos < (q.queue.length : Int) then Except.ok (q, [], none)
  else
    let q2 : Queue := { q with now_playing_pos := q.now_playing_pos + 1 }
    if ¬ q2.is_paused ∧ q2.now_playing_pos < (q2.queue.length : Int) then
      match q2.now_playing with
      | some t => Except.ok (q2, [Command.play q2.guildId t.encoded], q2.now_playing)
      | none => Except.error PyErr.assertionError
    else Except.ok (q2, [], q2.now_playing)

/-- `Queue.previous()`: step the cursor back unless it is at 0; play the
new current track when the queue is not paused. -/
def Queue.previous (q : Queue) : Except PyErr (Queue × List Command × Option Track) :=
  if ¬ q.now_playing_pos > 0 then Except.ok (q, [], none)
  else
    let q2 : Queue := { q with now_playing_pos := q.now_playing_pos - 1 }
    if ¬ q2.is_paused then
      match q2.now_playing with
      | some t => Except.ok (q2, [Command.play q2.guildId t.encoded], q2.now_playing)
      | none => Except.error PyErr.assertionError
    else Except.ok (q2, [], q2.now_playing)

/-- `Queue.skip_to(index)`: `IndexError` outside `0 <= index <= len(queue)`
(raised before any state change, so an error leaves the queue untouched
and issues no command); otherwise move the cursor and, when not paused,
play the new current track or stop if the cursor landed past the end. -/
def Queue.skip_to (index : Int) (q : Queue) : Except PyErr (Queue × List Command × Option Track) :=
  if ¬ (0 ≤ index ∧ index ≤ (q.queue.length : Int)) then Except.error PyErr.indexError
  else
    let q2 : Queue := { q with now_playing_pos := index }
    if ¬ q2.is_paused then
      match q2.now_playing with
      | some t => Except.ok (q2, [Command.play q2.guildId t.encoded], q2.now_playing)
      | none => Except.ok (q2, [Command.stop q2.guildId], q2.now_playing)
    else Except.ok (q2, [], q2.now_playing)

/-- The `mode == 0` branch of `Queue.shuffle`: the outputs of the two
`random.shuffle` calls on `queue[now_playing_pos + 1:]` and
`queue[:now_playing_pos]` are passed in as `upcoming2` and `history2`,
and written back over the same two slices. -/
def Queue.shuffle_mode0 (upcoming2 history2 : List Track) (q : Queue) : Queue :=
  let step1 := pyTake q.queue (q.now_playing_pos + 1) ++ upcoming2
  { q with queue := history2 ++ pyDrop step1 q.now_playing_pos }

/-- The `mode == 1` branch of `Queue.shuffle`: `combined2` is the output
of `random.shuffle` on `queue[now_playing_pos + 1:] + queue[:now_playing_pos]`;
the code writes `combined2[now_playing_pos + 1:]` over the upcoming slice
and `combined2[:now_playing_pos]` over the history slice. -/
def Queue.shuffle_mode1 (combined2 : List Track) (q : Queue) : Queue :=
  let step1 := pyTake q.queue (q.now_playing_pos + 1) ++ pyDrop combined2 (q.now_playing_pos + 1)
  { q with queue := pyTake combined2 q.now_playing_pos ++ pyDrop step1 q.now_playing_pos }

/-- One iteration of the loop in `Queue.remove_tracks`: remove by value
for a `models.Track` argument, by index (`list.pop`) for an `int`. -/
def removeOne (l : List Track) : Track ⊕ Int → Option (List Track)
  | Sum.inl t => pyRemove l t
  | Sum.inr i => pyPop l i

/-- The loop of `Queue.remove_tracks(*tracks_or_indexes)` over the track
list.  `none` models the `ValueError` and `IndexError` escapes. -/
def removeList (l : List Track) : List (Track ⊕ Int) → Option (List Track)
  | [] => some l
  | item :: rest =>
    match removeOne l item with
    | some l2 => removeList l2 rest
    | none => none

/-- `Queue.remove_tracks(*tracks_or_indexes)`.  The cursor is not
adjusted by the source. -/
def Queue.remove_tracks (items : List (Track ⊕ Int)) (q : Queue) : Option Queue :=
  (removeList q.queue items).map fun l => { q with queue := l }

/-- A playback-lifecycle event as seen by `Queue.track_events`. -/
inductive TrackEventKind where
  | trackEnd (reason : TrackEndReason)
  | trackStuck
  | trackException
deriving DecidableEq, Repr

/-- The fields of a `TrackEndEvent` / `TrackStuckEvent` /
`TrackExceptionEvent` that `Queue.track_events` reads. -/
structure TrackEvent where
  guild_id : Nat
  encoded_track : String
  kind : TrackEventKind
deriving DecidableEq, Repr

/-- The filter `isinstance(event, TrackEndEvent) and event.reason is not
TrackEndReason.FINISHED` from `Queue.track_events`. -/
def TrackEvent.endedNotFinished (ev : TrackEvent) : Bool :=
  match ev.kind with
  | TrackEventKind.trackEnd r => r ≠ TrackEndReason.finished
  | _ => false

/-- `Queue.track_events(event)`: ignore foreign-guild events and anything
while paused; ignore track-end events whose reason is not `FINISHED`;
then repeat-one replays the event's track, repeat-all with the cursor at
or past the end wraps via `skip_to(0)`, and otherwise `next()` advances. -/
def Queue.track_events (ev : TrackEvent) (q : Queue) : Except PyErr (Queue × List Command) :=
  if ev.guild_id ≠ q.guildId ∨ q.is_paused then Except.ok (q, [])
  else if ev.endedNotFinished then Except.ok (q, [])
  else if q.repeat_mode = RepeatMode.one then
    Except.ok (q, [Command.play q.guildId ev.encoded_track])
  else if q.repeat_mode = RepeatMode.all ∧ q.now_playing_pos ≥ (q.queue.length : Int) then
    (Queue.skip_to 0 q).map fun r => (r.1, r.2.1)
  else
    (Queue.next q).map fun r => (r.1, r.2.1)

/-- The cursor invariant from the spec:
`0 <= now_playing_pos <= len(queue)`. -/
def Queue.inv (q : Queue) : Prop :=
  0 ≤ q.now_playing_pos ∧ q.now_playing_pos ≤ (q.queue.length : Int)

/-- The companion property: `now_playing` is defined exactly when
`now_playing_pos < len(queue)`. -/
def Queue.npIff (q : Queue) : Prop :=
  q.now_playing ≠ none ↔ q.now_playing_pos < (q.queue.length : Int)

instance (q : Queue) : Decidable q.inv := by unfold Queue.inv; infer_instance

instance (q : Queue) : Decidable q.npIff := by unfold Queue.npIff; infer_instance

/-! ### Wire payloads, events and the dispatcher (`client.py`, `events.py`) -/

/-- The fields of an incoming JSON text frame that
`Lavalink._handle_payload` and `ReadyEvent.from_payload` read.  A field
modelled as `none` stands for a key that is absent or of the wrong type:
in the Python source, reading it raises (`KeyError`, or the explicit
`assert isinstance(...)`). -/
structure Payload where
  op : Option String
  type : Option String
  sessionId : Option String
  resumed : Option Bool
deriving DecidableEq, Repr

/-- The keys of the `Lavalink._event_listeners` registry: the event
classes that `Lavalink.dispatch` is called with. -/
inductive EventType where
  | ready
  | playerUpdate
  | stats
  | trackStart
  | trackEnd
  | trackException
  | trackStuck
  | webSocketClosed
deriving DecidableEq, Repr

/-- A decoded event (`events.py`).  `ReadyEvent.from_payload` is
reproduced field by field because the properties verify it; the other
variants carry the raw payload — their field extraction is a mechanical
DTO mapping that no verified property touches, and the dispatcher is
indifferent to it. -/
inductive Event where
  | ready (resumed : Bool) (session_id : String)
  | playerUpdate (raw : Payload)
  | stats (raw : Payload)
  | trackStart (raw : Payload)
  | trackEnd (raw : Payload)
  | trackException (raw : Payload)
  | trackStuck (raw : Payload)
  | webSocketClosed (raw : Payload)
deriving DecidableEq, Repr

/-- `EventType.from_payload(data)` for each registered event class.
`ReadyEvent.from_payload` reads `resumed` and `sessionId` and asserts
their types. -/
def Event.from_payload (ty : EventType) (d : Payload) : Except PyErr Event :=
  match ty with
  | EventType.ready =>
    match d.resumed, d.sessionId with
    | some b, some s => Except.ok (Event.ready b s)
    | _, _ => Except.error PyErr.assertionError
  | EventType.playerUpdate => Except.ok (Event.playerUpdate d)
  | EventType.stats => Except.ok (Event.stats d)
  | EventType.trackStart => Except.ok (Event.trackStart d)
  | EventType.trackEnd => Except.ok (Event.trackEnd d)
  | EventType.trackException => Except.ok (Event.trackException d)
  | EventType.trackStuck => Except.ok (Event.trackStuck d)
  | EventType.webSocketClosed => Except.ok (Event.webSocketClosed d)

/-- A REST side effect of payload handling: `update_session` is issued by
the `ready` branch when a resume key is configured. -/
inductive RestCall where
  | updateSession (resuming_key : String)
deriving DecidableEq, Repr

/-- The client state that `_handle_payload` touches.  Listener callbacks
are identified by `Nat` tags; `listeners ty` is the registration-ordered
list `self._event_listeners.get(ty)` (the empty list standing for an
absent key, which is equally falsy in the source's
`if listeners := self._event_listeners.get(event_type):`). -/
structure ClientState where
  session_id : Option String
  resume_key : Option String
  listeners : EventType → List Nat

/-- A listener invocation scheduled by `Lavalink.dispatch`: which
callback, with which event instance. -/
abbrev Delivery := Nat × Event

/-- `Lavalink.dispatch(event_type, data)`: when any listeners are
registered for the type, decode the payload once and schedule each
listener with the resulting event, in registration order. -/
def Lavalink.dispatch (st : ClientState) (ty : EventType) (d : Payload) :
    Except PyErr (List Delivery) :=
  match st.listeners ty with
  | [] => Except.ok []
  | ls => (Event.from_payload ty d).map fun e => ls.map fun l => (l, e)

/-- `Lavalink._handle_payload(data_str)` after `json.loads`: branch on the
`op` discriminator; `ready` records the session ID, issues the
resume-key session update when configured and dispatches; `event` frames
branch on the nested `type`; anything unknown falls through silently.
Returns the new state, the scheduled listener invocations and the issued
REST calls. -/
def Lavalink.handle_payload (st : ClientState) (d : Payload) :
    Except PyErr (ClientState × List Delivery × List RestCall) :=
  match d.op with
  | none => Except.error PyErr.keyError
  | some op =>
    if op = "ready" then
      match d.sessionId with
      | none => Except.error PyErr.keyError
      | some s =>
        let st2 : ClientState := { st with session_id := some s }
        let rest : List RestCall :=
          match st2.resume_key with
          | some k => [RestCall.updateSession k]
          | none => []
        (Lavalink.dispatch st2 EventType.ready d).map fun ds => (st2, ds, rest)
    else if op = "playerUpdate" then
      (Lavalink.dispatch st EventType.playerUpdate d).map fun ds => (st, ds, [])
    else if op = "stats" then
      (Lavalink.dispatch st EventType.stats d).map fun ds => (st, ds, [])
    else if op = "event" then
      match d.type with
      | none => Except.error PyErr.keyError
      | some ty =>
        if ty = "TrackStartEvent" then
          (Lavalink.dispatch st EventType.trackStart d).map fun ds => (st, ds, [])
        else if ty = "TrackEndEvent" then
          (Lavalink.dispatch st EventType.trackEnd d).map fun ds => (st, ds, [])
        else if ty = "TrackExceptionEvent" then
          (Lavalink.dispatch st EventType.trackException d).map fun ds => (st, ds, [])
        else if ty = "TrackStuckEvent" then
          (Lavalink.dispatch st EventType.trackStuck d).map fun ds => (st, ds, [])
        else if ty = "WebSocketClosedEvent" then
          (Lavalink.dispatch st EventType.webSocketClosed d).map fun ds => (st, ds, [])
        else Except.ok (st, [], [])
    else Except.ok (st, [], [])

/-! ### Player-state decoding (`models.py`) -/

/-- The fields of a `playerUpdate` frame's `state` object that
`PlayerState.from_payload` reads.  `none` stands for an absent key (or,
for the required keys, a value failing the `isinstance` assertion). -/
structure PlayerStatePayload where
  time : Option Int
  position : Option Int
  connected : Option Bool
  ping : Option Int
deriving DecidableEq, Repr

/-- `models.PlayerState`.  `datetime.datetime` is modelled as rational
seconds since the epoch, `datetime.timedelta` as integer milliseconds. -/
structure PlayerState where
  time : ℚ
  position : Option Int
  connected : Bool
  ping : Option Int
deriving DecidableEq, Repr

/-- `PlayerState.from_payload(data)`: `time` is required and becomes
`datetime.fromtimestamp(time / 1000)`; `position` is optional and is
passed through Python truthiness (`... if position else None`), so both
an absent key and the integer 0 decode to `None`; `connected` is
required; `ping` is required and `-1` decodes to `None`. -/
def PlayerState.from_payload (d : PlayerStatePayload) : Except PyErr PlayerState :=
  match d.time, d.connected, d.ping with
  | some t, some c, some p =>
    Except.ok
      { time := (t : ℚ) / 1000
        position :=
          match d.position with
          | some pos => if pos ≠ 0 then some pos else none
          | none => none
        connected := c
        ping := if p ≠ -1 then some p else none }
  | _, _, _ => Except.error PyErr.assertionError

/-! ### Verified properties -/

/-- C9: for every queue and every index outside `[0, len(queue)]`,
`skip_to(index)` raises `IndexError` synchronously; in this state-passing
embedding the `Except.error` result is raised before any mutation, so the
caller observes an unchanged queue and no issued play or stop command. -/
theorem skipTo_out_of_range_raises (q : Queue) (i : Int)
    (h : ¬ (0 ≤ i ∧ i ≤ (q.queue.length : Int))) :
    Queue.skip_to i q = Except.error PyErr.indexError := by
  unfold Queue.skip_to
  simp only [if_pos h]

/-- Witness for C9: `skip_to(-1)` on a one-track queue raises. -/
theorem skipTo_out_of_range_raises_witness :
    Queue.skip_to (-1) ⟨1, [⟨"A"⟩], 0, false, RepeatMode.none⟩ =
      Except.error PyErr.indexError :=
  skipTo_out_of_range_raises ⟨1, [⟨"A"⟩], 0, false, RepeatMode.none⟩ (-1) (by decide)

/-- C7: player-state decoding sends the millisecond `time` field to the
absolute time `time / 1000` seconds since the epoch, decodes a `ping` of
`-1` to no value, and decodes every other integer `ping` to exactly that
many milliseconds. -/
theorem playerState_time_and_ping_decode (d : PlayerStatePayload) (t : Int) (c : Bool) (p : Int)
    (ht : d.time = some t) (hc : d.connected = some c) (hp : d.ping = some p) :
    ∃ ps, PlayerState.from_payload d = Except.ok ps ∧
      ps.time = (t : ℚ) / 1000 ∧
      ps.ping = (if p = -1 then none else some p) := by
  unfold PlayerState.from_payload
  rw [ht, hc, hp]
  refine ⟨_, rfl, rfl, ?_⟩
  by_cases hpp : p = -1 <;> simp [hpp]

/-- Witness for C7 at `time = 5000`, `ping = -1`. -/
theorem playerState_time_and_ping_decode_witness :
    ∃ ps, PlayerState.from_payload ⟨some 5000, some 7, some true, some (-1)⟩ = Except.ok ps ∧
      ps.time = ((5000 : Int) : ℚ) / 1000 ∧
      ps.ping = (if (-1 : Int) = -1 then none else some (-1)) :=
  playerState_time_and_ping_decode ⟨some 5000, some 7, some true, some (-1)⟩
    5000 true (-1) rfl rfl rfl

/-- C10: in player-state decoding a `position` of the integer 0 decodes to
no value, and the whole decoded record is the same as if the field were
absent; only a non-zero integer `position` decodes to that many
milliseconds. -/
theorem playerState_position_zero_truthy (d : PlayerStatePayload) (t : Int) (c : Bool)
    (p : Int) (pos : Int)
    (ht : d.time = some t) (hc : d.connected = some c) (hp : d.ping = some p) :
    PlayerState.from_payload { d with position := some 0 } =
        PlayerState.from_payload { d with position := none } ∧
    (∃ ps, PlayerState.from_payload { d with position := some 0 } = Except.ok ps ∧
      ps.position = none) ∧
    (pos ≠ 0 →
      ∃ ps, PlayerState.from_payload { d with position := some pos } = Except.ok ps ∧
        ps.position = some pos) := by
  unfold PlayerState.from_payload
  simp only [ht, hc, hp]
  refine ⟨rfl, ⟨_, rfl, rfl⟩, fun hpos => ⟨_, rfl, ?_⟩⟩
  simp [hpos]

/-- Witness for C10 at `position = 0` versus `position` absent, and with 42
for the non-zero case. -/
theorem playerState_position_zero_truthy_witness :
    PlayerState.from_payload ⟨some 5000, some 0, some true, some 3⟩ =
        PlayerState.from_payload ⟨some 5000, none, some true, some 3⟩ ∧
    (∃ ps, PlayerState.from_payload ⟨some 5000, some 0, some true, some 3⟩ = Except.ok ps ∧
      ps.position = none) ∧
    ((42 : Int) ≠ 0 →
      ∃ ps, PlayerState.from_payload ⟨some 5000, some 42, some true, some 3⟩ = Except.ok ps ∧
        ps.position = some 42) :=
  playerState_position_zero_truthy ⟨some 5000, none, some true, some 3⟩
    5000 true 3 42 rfl rfl rfl

/-- C5: a frame whose `op` is none of ready/playerUpdate/stats/event, or
an `event` frame whose nested `type` is none of the five known event
types, is handled without raising and without scheduling any listener
invocation (and without touching the client state or issuing REST
calls). -/
theorem unknown_op_or_type_ignored (st : ClientState) (d : Payload) (o : String)
    (ho : d.op = some o)
    (hu : (o ≠ "ready" ∧ o ≠ "playerUpdate" ∧ o ≠ "stats" ∧ o ≠ "event") ∨
      (o = "event" ∧ ∃ ty, d.type = some ty ∧
        ty ≠ "TrackStartEvent" ∧ ty ≠ "TrackEndEvent" ∧ ty ≠ "TrackExceptionEvent" ∧
        ty ≠ "TrackStuckEvent" ∧ ty ≠ "WebSocketClosedEvent")) :
    Lavalink.handle_payload st d = Except.ok (st, [], []) := by
  unfold Lavalink.handle_payload
  rw [ho]
  rcases hu with ⟨h1, h2, h3, h4⟩ | ⟨he, ty, hty, t1, t2, t3, t4, t5⟩
  · simp only [if_neg h1, if_neg h2, if_neg h3, if_neg h4]
  · subst he
    simp only [String.reduceEq, ite_false, hty,
      if_neg t1, if_neg t2, if_neg t3, if_neg t4, if_neg t5]
    simp

/-- Witness for C5: an unknown top-level `op` with a listener registered
for every event type, and an `event` frame with an unknown nested type;
neither reaches any listener. -/
theorem unknown_op_or_type_ignored_witness :
    Lavalink.handle_payload ⟨none, none, fun _ => [0]⟩ ⟨some "foo", none, none, none⟩ =
        Except.ok (⟨none, none, fun _ => [0]⟩, [], []) ∧
    Lavalink.handle_payload ⟨none, none, fun _ => [0]⟩
        ⟨some "event", some "FooEvent", none, none⟩ =
        Except.ok (⟨none, none, fun _ => [0]⟩, [], []) :=
  ⟨unknown_op_or_type_ignored ⟨none, none, fun _ => [0]⟩ ⟨some "foo", none, none, none⟩
      "foo" rfl (Or.inl (by decide)),
    unknown_op_or_type_ignored ⟨none, none, fun _ => [0]⟩
      ⟨some "event", some "FooEvent", none, none⟩
      "event" rfl (Or.inr ⟨rfl, "FooEvent", rfl, by decide, by decide, by decide, by decide, by decide⟩)⟩

/-- Count of a given listener's scheduled invocations when every listener
is paired with the same event instance. -/
theorem listener_count_map (ls : List Nat) (e : Event) (l : Nat) :
    (ls.map fun x => (x, e)).count (l, e) = ls.count l := by
  induction ls with
  | nil => rfl
  | cons a as ih =>
    by_cases h : a = l
    · subst h
      simp [List.count_cons, ih]
    · simp [List.count_cons, ih, h]

/-- C6: handling a valid `ready` frame records exactly the frame's
`sessionId` on the client, and schedules a `Ready` event whose `resumed`
and `session_id` fields match the frame for every listener registered
under the Ready event type, in registration order — each registered
listener exactly once for this frame (the count clause).  The REST side
effect is the session update carrying the configured resume key, when
one is set. -/
theorem ready_frame_records_session_and_dispatches (st : ClientState) (d : Payload)
    (s : String) (b : Bool)
    (hop : d.op = some "ready") (hs : d.sessionId = some s) (hb : d.resumed = some b) :
    Lavalink.handle_payload st d =
      Except.ok ({ st with session_id := some s },
        (st.listeners EventType.ready).map (fun l => (l, Event.ready b s)),
        match st.resume_key with
        | some k => [RestCall.updateSession k]
        | none => []) ∧
    ∀ l : Nat,
      ((st.listeners EventType.ready).map (fun l2 => (l2, Event.ready b s))).count
          (l, Event.ready b s) = (st.listeners EventType.ready).count l := by
  constructor
  · unfold Lavalink.handle_payload Lavalink.dispatch Event.from_payload
    rw [hop, hs]
    simp only [if_pos rfl]
    cases hls : st.listeners EventType.ready with
    | nil => simp [hls, hb, Except.map]
    | cons a as => simp [hls, hb, Except.map]
  · exact fun l => listener_count_map _ _ l

/-- Witness for C6: two Ready listeners registered; both get the decoded
event once and the session ID is recorded. -/
theorem ready_frame_records_session_and_dispatches_witness :
    Lavalink.handle_payload ⟨none, some "rk", fun _ => [0, 1]⟩
        ⟨some "ready", none, some "s1", some true⟩ =
      Except.ok ({ (⟨none, some "rk", fun _ => [0, 1]⟩ : ClientState) with
          session_id := some "s1" },
        ((⟨none, some "rk", fun _ => [0, 1]⟩ : ClientState).listeners EventType.ready).map
          (fun l => (l, Event.ready true "s1")),
        match (⟨none, some "rk", fun _ => [0, 1]⟩ : ClientState).resume_key with
        | some k => [RestCall.updateSession k]
        | none => []) ∧
    ∀ l : Nat,
      (((⟨none, some "rk", fun _ => [0, 1]⟩ : ClientState).listeners EventType.ready).map
          (fun l2 => (l2, Event.ready true "s1"))).count
          (l, Event.ready true "s1") =
        ((⟨none, some "rk", fun _ => [0, 1]⟩ : ClientState).listeners EventType.ready).count l :=
  ready_frame_records_session_and_dispatches ⟨none, some "rk", fun _ => [0, 1]⟩
    ⟨some "ready", none, some "s1", some true⟩ "s1" true rfl rfl rfl

/-- A successful `list.remove` removes exactly one element. -/
theorem pyRemove_length {α : Type} [DecidableEq α] {l l2 : List α} {x : α}
    (h : pyRemove l x = some l2) : l2.length + 1 = l.length := by
  induction l generalizing l2 with
  | nil => simp [pyRemove] at h
  | cons a as ih =>
    simp only [pyRemove] at h
    split at h
    · cases h
      rfl
    · cases hr : pyRemove as x with
      | none => rw [hr] at h; cases h
      | some l3 =>
        rw [hr] at h
        cases h
        simpa using ih hr

/-- A successful `list.pop` removes exactly one element. -/
theorem pyPop_length {α : Type} {l l2 : List α} {i : Int}
    (h : pyPop l i = some l2) : l2.length + 1 = l.length := by
  simp only [pyPop] at h
  by_cases hc : 0 ≤ (if i < 0 then i + (l.length : Int) else i) ∧
      (if i < 0 then i + (l.length : Int) else i) < (l.length : Int)
  · rw [if_pos hc] at h
    cases h
    have hlt : (if i < 0 then i + (l.length : Int) else i).toNat < l.length := by omega
    rw [List.length_eraseIdx_of_lt hlt]
    omega
  · rw [if_neg hc] at h
    cases h

/-- One iteration of the `remove_tracks` loop removes exactly one element. -/
theorem removeOne_length {l l2 : List Track} {item : Track ⊕ Int}
    (h : removeOne l item = some l2) : l2.length + 1 = l.length := by
  cases item with
  | inl t => exact pyRemove_length h
  | inr i => exact pyPop_length h

/-- A successful `remove_tracks` loop removes exactly as many elements as
it was given arguments. -/
theorem removeList_length : ∀ {items : List (Track ⊕ Int)} {l l2 : List Track},
    removeList l items = some l2 → l2.length + items.length = l.length := by
  intro items
  induction items with
  | nil =>
    intro l l2 h
    cases h
    simp
  | cons item rest ih =>
    intro l l2 h
    simp only [removeList] at h
    cases ho : removeOne l item with
    | none => rw [ho] at h; cases h
    | some l3 =>
      rw [ho] at h
      have h1 := ih h
      have h2 := removeOne_length ho
      simp only [List.length_cons]
      omega

/-- `Queue.remove_tracks` shortens the track list by the number of
arguments and leaves every other field, the cursor included, unchanged. -/
theorem remove_tracks_spec {items : List (Track ⊕ Int)} {q q2 : Queue}
    (h : Queue.remove_tracks items q = some q2) :
    q2.queue.length + items.length = q.queue.length ∧
      q2.now_playing_pos = q.now_playing_pos := by
  unfold Queue.remove_tracks at h
  cases hr : removeList q.queue items with
  | none => rw [hr] at h; cases h
  | some l2 =>
    rw [hr] at h
    cases h
    exact ⟨removeList_length hr, rfl⟩

/-- Under the cursor invariant, `now_playing` is defined exactly when the
cursor is strictly inside the queue. -/
theorem npIff_of_inv {q : Queue} (h : Queue.inv q) : Queue.npIff q := by
  obtain ⟨h0, hle⟩ := h
  unfold Queue.npIff Queue.now_playing pyIndex?
  by_cases hlt : q.now_playing_pos < (q.queue.length : Int)
  · simp only [if_pos hlt, if_pos h0, Ne, List.get?_eq_none]
    omega
  · simp [hlt]

/-- Helper: the state component of `Queue.add`. -/
theorem add_fst (t : Track) (q : Queue) :
    (Queue.add t q).1 = { q with queue := q.queue ++ [t] } := by
  simp only [Queue.add]
  split <;> rfl

/-- C1 (amended): the cursor invariant `0 <= now_playing_pos <= len(queue)`
is preserved by `add`, `next`, `previous` and `skip_to` unconditionally,
and by `remove_tracks` provided the cursor plus the number of removed
items still fits inside the queue; in every resulting state `now_playing`
is defined exactly when `now_playing_pos < len(queue)`.  (Without the
extra bound, `remove_tracks` violates the invariant: it never adjusts the
cursor, so removing enough tracks from under a cursor sitting at or near
the end leaves `now_playing_pos > len(queue)` — see the counterexample.) -/
theorem queue_ops_preserve_cursor_invariant (q : Queue) (t : Track) (i : Int)
    (items : List (Track ⊕ Int)) (h : Queue.inv q) :
    (Queue.inv (Queue.add t q).1 ∧ Queue.npIff (Queue.add t q).1) ∧
    (∀ r, Queue.next q = Except.ok r → Queue.inv r.1 ∧ Queue.npIff r.1) ∧
    (∀ r, Queue.previous q = Except.ok r → Queue.inv r.1 ∧ Queue.npIff r.1) ∧
    (∀ r, Queue.skip_to i q = Except.ok r → Queue.inv r.1 ∧ Queue.npIff r.1) ∧
    (∀ q2, Queue.remove_tracks items q = some q2 →
      q.now_playing_pos + (items.length : Int) ≤ (q.queue.length : Int) →
      Queue.inv q2 ∧ Queue.npIff q2) := by
  obtain ⟨h0, hle⟩ := h
  refine ⟨?_, ?_, ?_, ?_, ?_⟩
  · have hinv : Queue.inv (Queue.add t q).1 := by
      rw [add_fst]
      refine ⟨h0, ?_⟩
      simp only [List.length_append, List.length_cons, List.length_nil]
      omega
    exact ⟨hinv, npIff_of_inv hinv⟩
  · intro r hr
    simp only [Queue.next] at hr
    split at hr
    · cases hr
      exact ⟨⟨h0, hle⟩, npIff_of_inv ⟨h0, hle⟩⟩
    · rename_i hlt
      have hinv : Queue.inv { q with now_playing_pos := q.now_playing_pos + 1 } := by
        refine ⟨?_, ?_⟩ <;> dsimp only <;> omega
      split at hr
      · split at hr
        · cases hr
          exact ⟨hinv, npIff_of_inv hinv⟩
        · cases hr
      · cases hr
        exact ⟨hinv, npIff_of_inv hinv⟩
  · intro r hr
    simp only [Queue.previous] at hr
    split at hr
    · cases hr
      exact ⟨⟨h0, hle⟩, npIff_of_inv ⟨h0, hle⟩⟩
    · rename_i hgt
      have hinv : Queue.inv { q with now_playing_pos := q.now_playing_pos - 1 } := by
        refine ⟨?_, ?_⟩ <;> dsimp only <;> omega
      split at hr
      · split at hr
        · cases hr
          exact ⟨hinv, npIff_of_inv hinv⟩
        · cases hr
      · cases hr
        exact ⟨hinv, npIff_of_inv hinv⟩
  · intro r hr
    simp only [Queue.skip_to] at hr
    split at hr
    · cases hr
    · rename_i hrange
      rw [not_not] at hrange
      have hinv : Queue.inv { q with now_playing_pos := i } :=
        ⟨hrange.1, hrange.2⟩
      split at hr
      · split at hr
        · cases hr
          exact ⟨hinv, npIff_of_inv hinv⟩
        · cases hr
          exact ⟨hinv, npIff_of_inv hinv⟩
      · cases hr
        exact ⟨hinv, npIff_of_inv hinv⟩
  · intro q2 h2 hbound
    obtain ⟨hlen, hpos⟩ := remove_tracks_spec h2
    have hinv : Queue.inv q2 := by
      refine ⟨by omega, ?_⟩
      have : (q2.queue.length : Int) + (items.length : Int) = (q.queue.length : Int) := by
        exact_mod_cast congrArg (Nat.cast : Nat → Int) hlen
      omega
    exact ⟨hinv, npIff_of_inv hinv⟩

/-- Witness for C1's theorem on a two-track queue with the cursor on the
second track: add a track, advance, step back, skip to the end, remove
the first track by value. -/
theorem queue_ops_preserve_cursor_invariant_witness :
    (Queue.inv (Queue.add ⟨"C"⟩ ⟨1, [⟨"A"⟩, ⟨"B"⟩], 1, false, RepeatMode.none⟩).1 ∧
      Queue.npIff (Queue.add ⟨"C"⟩ ⟨1, [⟨"A"⟩, ⟨"B"⟩], 1, false, RepeatMode.none⟩).1) ∧
    (∀ r, Queue.next ⟨1, [⟨"A"⟩, ⟨"B"⟩], 1, false, RepeatMode.none⟩ = Except.ok r →
      Queue.inv r.1 ∧ Queue.npIff r.1) ∧
    (∀ r, Queue.previous ⟨1, [⟨"A"⟩, ⟨"B"⟩], 1, false, RepeatMode.none⟩ = Except.ok r →
      Queue.inv r.1 ∧ Queue.npIff r.1) ∧
    (∀ r, Queue.skip_to 2 ⟨1, [⟨"A"⟩, ⟨"B"⟩], 1, false, RepeatMode.none⟩ = Except.ok r →
      Queue.inv r.1 ∧ Queue.npIff r.1) ∧
    (∀ q2, Queue.remove_tracks [Sum.inl ⟨"A"⟩] ⟨1, [⟨"A"⟩, ⟨"B"⟩], 1, false, RepeatMode.none⟩ =
        some q2 →
      (1 : Int) + ((1 : Nat) : Int) ≤ ((2 : Nat) : Int) →
      Queue.inv q2 ∧ Queue.npIff q2) :=
  queue_ops_preserve_cursor_invariant ⟨1, [⟨"A"⟩, ⟨"B"⟩], 1, false, RepeatMode.none⟩
    ⟨"C"⟩ 2 [Sum.inl ⟨"A"⟩] (by decide)

/-- Counterexample for C1 as stated: the queue `[A]` with the cursor just
past the end (a state reachable by `add` then `next`) satisfies the
invariant, yet `remove_tracks(0)` succeeds and leaves
`now_playing_pos = 1 > 0 = len(queue)`. -/
theorem remove_tracks_breaks_cursor_invariant :
    Queue.inv ⟨1, [⟨"A"⟩], 1, false, RepeatMode.none⟩ ∧
    Queue.remove_tracks [Sum.inr 0] ⟨1, [⟨"A"⟩], 1, false, RepeatMode.none⟩ =
      some ⟨1, [], 1, false, RepeatMode.none⟩ ∧
    ¬ Queue.inv ⟨1, [], 1, false, RepeatMode.none⟩ :=
  ⟨by decide, rfl, by decide⟩

/-- C2: evaluation of the code at the claim's scenario.  Queue `[A,B,C]`,
cursor 2 (playing the last track), repeat mode `all`, not paused; a
track-end event with reason FINISHED for this guild arrives.  The wrap
guard `now_playing_pos >= len(queue)` compares 2 with 3 and fails, so the
handler falls through to `next()`: the cursor moves to 3 and no command
at all is issued — the queue does not wrap to 0 and no play command for
the first track is sent. -/
theorem repeat_all_last_track_does_not_wrap :
    Queue.track_events ⟨1, "C", TrackEventKind.trackEnd TrackEndReason.finished⟩
        ⟨1, [⟨"A"⟩, ⟨"B"⟩, ⟨"C"⟩], 2, false, RepeatMode.all⟩ =
      Except.ok (⟨1, [⟨"A"⟩, ⟨"B"⟩, ⟨"C"⟩], 3, false, RepeatMode.all⟩, []) := rfl

/-- C2 context: the wrap branch itself does behave as the spec describes
once the cursor is already at or past the end when the event arrives —
dead code in the FINISHED flow, since `next()` never plays after moving
the cursor to the end and therefore no further FINISHED event is
generated.  This supports reading the spec as the intent and the guard as
the slip. -/
theorem repeat_all_wraps_when_cursor_past_end :
    Queue.track_events ⟨1, "C", TrackEventKind.trackEnd TrackEndReason.finished⟩
        ⟨1, [⟨"A"⟩, ⟨"B"⟩, ⟨"C"⟩], 3, false, RepeatMode.all⟩ =
      Except.ok (⟨1, [⟨"A"⟩, ⟨"B"⟩, ⟨"C"⟩], 0, false, RepeatMode.all⟩,
        [Command.play 1 "A"]) := rfl

/-- C3 counterexample: queue `[A,B,C]`, cursor 2, repeat `none`, not
paused; the FINISHED track-end event for C moves the cursor to 3 with an
empty command list — in particular no stop command is issued, contrary to
the claim. -/
theorem finished_at_end_issues_no_stop :
    Queue.track_events ⟨1, "C", TrackEventKind.trackEnd TrackEndReason.finished⟩
        ⟨1, [⟨"A"⟩, ⟨"B"⟩, ⟨"C"⟩], 2, false, RepeatMode.none⟩ =
      Except.ok (⟨1, [⟨"A"⟩, ⟨"B"⟩, ⟨"C"⟩], 3, false, RepeatMode.none⟩, []) ∧
    Command.stop 1 ∉ ([] : List Command) :=
  ⟨rfl, List.not_mem_nil _⟩

/-- C3 (amended): for any queue `[A,B,C]` with cursor 2, repeat `none`,
not paused, handling a FINISHED track-end event for the current track
sets the cursor to 3 and makes `now_playing` undefined, and issues no
command at all — neither play nor stop (the auto-advance path delegates
to `Queue.next`, which never issues a stop; the stop on reaching the end
exists only in `skip_to` and the `PlayerManager` methods). -/
theorem finished_at_end_advances_cursor_silently (g : Nat) (a b c : Track) :
    Queue.track_events ⟨g, c.encoded, TrackEventKind.trackEnd TrackEndReason.finished⟩
        ⟨g, [a, b, c], 2, false, RepeatMode.none⟩ =
      Except.ok (⟨g, [a, b, c], 3, false, RepeatMode.none⟩, []) ∧
    (⟨g, [a, b, c], 3, false, RepeatMode.none⟩ : Queue).now_playing = none := by
  constructor
  · simp [Queue.track_events, Queue.next, Queue.now_playing,
      TrackEvent.endedNotFinished, Except.map]
  · simp [Queue.now_playing]

/-- C4: evaluation of the code at the failing input.  Queue `[A,B,C]`,
cursor 0; `shuffle(mode=1)` builds `combined = upcoming + history` (here
`[B, C]`, a permutation of itself — the identity shuffle is taken as the
`random.shuffle` outcome), then writes `combined[pos+1:]` and
`combined[:pos]` back over the two slices.  `combined[pos]` is written
nowhere: the queue ends up `[A, C]` of length 2, so a track is dropped
and the two slices do not hold a rearrangement of what they held. -/
theorem shuffle_mode1_drops_a_track :
    ([⟨"B"⟩, ⟨"C"⟩] : List Track).Perm
        (pyDrop ([⟨"A"⟩, ⟨"B"⟩, ⟨"C"⟩] : List Track) (0 + 1) ++
          pyTake ([⟨"A"⟩, ⟨"B"⟩, ⟨"C"⟩] : List Track) 0) ∧
    (Queue.shuffle_mode1 [⟨"B"⟩, ⟨"C"⟩]
        ⟨1, [⟨"A"⟩, ⟨"B"⟩, ⟨"C"⟩], 0, false, RepeatMode.none⟩).queue =
      [⟨"A"⟩, ⟨"C"⟩] ∧
    ¬ (Queue.shuffle_mode1 [⟨"B"⟩, ⟨"C"⟩]
        ⟨1, [⟨"A"⟩, ⟨"B"⟩, ⟨"C"⟩], 0, false, RepeatMode.none⟩).queue.length =
      ([⟨"A"⟩, ⟨"B"⟩, ⟨"C"⟩] : List Track).length :=
  ⟨by decide, rfl, by decide⟩

/-- A slice bound given as a natural number is clamped to `min p len`. -/
theorem sliceIdx_natCast (len p : Nat) : sliceIdx len (p : Int) = min p len := by
  unfold sliceIdx
  rw [if_neg (by omega), Int.toNat_natCast]

/-- `l[:p]` for a natural bound is `List.take p`. -/
theorem pyTake_natCast {α : Type} (l : List α) (p : Nat) : pyTake l (p : Int) = l.take p := by
  unfold pyTake
  rw [sliceIdx_natCast]
  rcases le_or_lt p l.length with hc | hc
  · rw [min_eq_left hc]
  · rw [min_eq_right hc.le, List.take_length, List.take_of_length_le hc.le]

/-- `l[p:]` for a natural bound is `List.drop p`. -/
theorem pyDrop_natCast {α : Type} (l : List α) (p : Nat) : pyDrop l (p : Int) = l.drop p := by
  unfold pyDrop
  rw [sliceIdx_natCast]
  rcases le_or_lt p l.length with hc | hc
  · rw [min_eq_left hc]
  · rw [min_eq_right hc.le, List.drop_length, List.drop_eq_nil_of_le hc.le]

/-- C8: `shuffle(mode=0)` leaves the track at the cursor position
unchanged, replaces the positions before the cursor with a permutation of
the tracks originally there, and the positions after the cursor with a
permutation of the tracks originally there; the length is unchanged.  The
outputs of the two `random.shuffle` calls enter as `upcoming2` and
`history2`, constrained to be permutations of the slices the source
shuffles. -/
theorem shuffle_mode0_permutes_around_cursor (q : Queue) (p : Nat)
    (upcoming2 history2 : List Track)
    (hpos : q.now_playing_pos = (p : Int)) (hple : p ≤ q.queue.length)
    (hu : upcoming2.Perm (pyDrop q.queue (q.now_playing_pos + 1)))
    (hh : history2.Perm (pyTake q.queue q.now_playing_pos)) :
    (Queue.shuffle_mode0 upcoming2 history2 q).queue.length = q.queue.length ∧
    (Queue.shuffle_mode0 upcoming2 history2 q).queue[p]? = q.queue[p]? ∧
    ((Queue.shuffle_mode0 upcoming2 history2 q).queue.take p).Perm (q.queue.take p) ∧
    ((Queue.shuffle_mode0 upcoming2 history2 q).queue.drop (p + 1)).Perm
      (q.queue.drop (p + 1)) := by
  have hcast : q.now_playing_pos + 1 = ((p + 1 : Nat) : Int) := by
    rw [hpos]
    push_cast
    ring
  rw [hpos, pyTake_natCast] at hh
  rw [hcast, pyDrop_natCast] at hu
  have hR : (Queue.shuffle_mode0 upcoming2 history2 q).queue =
      history2 ++ (q.queue.take (p + 1) ++ upcoming2).drop p := by
    unfold Queue.shuffle_mode0
    dsimp only
    rw [hcast, hpos, pyTake_natCast, pyDrop_natCast]
  have hlh : history2.length = p := by
    rw [hh.length_eq, List.length_take, min_eq_left hple]
  rcases lt_or_eq_of_le hple with hlt | heq
  · have hdrop : (q.queue.take (p + 1) ++ upcoming2).drop p =
        q.queue[p] :: upcoming2 := by
      rw [List.take_succ, List.getElem?_eq_getElem hlt, List.append_assoc,
        List.drop_left' (by rw [List.length_take, min_eq_left hlt.le])]
      rfl
    rw [hR, hdrop]
    have hlu : upcoming2.length = q.queue.length - (p + 1) := by
      rw [hu.length_eq, List.length_drop]
    refine ⟨?_, ?_, ?_, ?_⟩
    · simp only [List.length_append, List.length_cons, hlh, hlu]
      omega
    · rw [List.getElem?_append_right (by omega), hlh, Nat.sub_self,
        List.getElem?_eq_getElem hlt]
      simp
    · rw [List.take_left' hlh]
      exact hh
    · rw [List.append_cons, List.drop_left' (by simp [hlh])]
      exact hu
  · have hnil : q.queue.drop (p + 1) = [] := List.drop_eq_nil_of_le (by omega)
    rw [hnil] at hu
    have hu2 : upcoming2 = [] := hu.eq_nil
    have hdl : q.queue.drop p = [] := List.drop_eq_nil_of_le (by omega)
    rw [hR, hu2, List.append_nil, List.take_of_length_le (by omega), hdl,
      List.append_nil]
    refine ⟨by omega, ?_, ?_, ?_⟩
    · rw [List.getElem?_eq_none (by omega), List.getElem?_eq_none (by omega)]
    · rw [List.take_of_length_le (by omega)]
      exact hh
    · rw [List.drop_eq_nil_of_le (by omega), hnil]

/-- Witness for C8: queue `[A,B,C,D,E]`, cursor 2, upcoming slice shuffled
to `[E, D]` and history slice shuffled to `[B, A]`. -/
theorem shuffle_mode0_permutes_around_cursor_witness :
    (Queue.shuffle_mode0 [⟨"E"⟩, ⟨"D"⟩] [⟨"B"⟩, ⟨"A"⟩]
        ⟨1, [⟨"A"⟩, ⟨"B"⟩, ⟨"C"⟩, ⟨"D"⟩, ⟨"E"⟩], 2, false, RepeatMode.none⟩).queue.length =
      ([⟨"A"⟩, ⟨"B"⟩, ⟨"C"⟩, ⟨"D"⟩, ⟨"E"⟩] : List Track).length ∧
    (Queue.shuffle_mode0 [⟨"E"⟩, ⟨"D"⟩] [⟨"B"⟩, ⟨"A"⟩]
        ⟨1, [⟨"A"⟩, ⟨"B"⟩, ⟨"C"⟩, ⟨"D"⟩, ⟨"E"⟩], 2, false, RepeatMode.none⟩).queue[2]? =
      ([⟨"A"⟩, ⟨"B"⟩, ⟨"C"⟩, ⟨"D"⟩, ⟨"E"⟩] : List Track)[2]? ∧
    ((Queue.shuffle_mode0 [⟨"E"⟩, ⟨"D"⟩] [⟨"B"⟩, ⟨"A"⟩]
        ⟨1, [⟨"A"⟩, ⟨"B"⟩, ⟨"C"⟩, ⟨"D"⟩, ⟨"E"⟩], 2, false, RepeatMode.none⟩).queue.take 2).Perm
      (([⟨"A"⟩, ⟨"B"⟩, ⟨"C"⟩, ⟨"D"⟩, ⟨"E"⟩] : List Track).take 2) ∧
    ((Queue.shuffle_mode0 [⟨"E"⟩, ⟨"D"⟩] [⟨"B"⟩, ⟨"A"⟩]
        ⟨1, [⟨"A"⟩, ⟨"B"⟩, ⟨"C"⟩, ⟨"D"⟩, ⟨"E"⟩], 2, false, RepeatMode.none⟩).queue.drop
        (2 + 1)).Perm
      (([⟨"A"⟩, ⟨"B"⟩, ⟨"C"⟩, ⟨"D"⟩, ⟨"E"⟩] : List Track).drop (2 + 1)) :=
  shuffle_mode0_permutes_around_cursor
    ⟨1, [⟨"A"⟩, ⟨"B"⟩, ⟨"C"⟩, ⟨"D"⟩, ⟨"E"⟩], 2, false, RepeatMode.none⟩ 2
    [⟨"E"⟩, ⟨"D"⟩] [⟨"B"⟩, ⟨"A"⟩] rfl (by decide) (by decide) (by decide)
